import Mathlib

/-!
Verification of the enchant-windows-provider concurrency core
(`src/windows_provider.cpp`).

The development has three layers, each a shallow embedding of a part of the
source file:

1. An interleaving small-step machine for `CoThreadDispatcher` (lines 60-122):
   one worker thread running `threadProc` and `n` caller threads each running
   one `dispatch` call.  The mutex `processing_mutex`, the condition variable
   `dispatch_begin` (wakeups happen only at `notify_all`; spurious wakeups are
   not modelled), the single `dispatched_function` slot and the per-call
   future are explicit state.  Each transition is one atomic region of the
   source between synchronization points.

2. A sequential model of the reference-counted registry
   (`com_dispatcher_addref` / `com_dispatcher_release`, lines 124-142) and of
   `init_enchant_provider` / `windows_provider_dispose`.  Each registry call
   runs under `com_dispatcher_mutex`, so a call is one atomic transition on a
   `World`; an event trace records ordering-relevant actions.  The reference
   count is a C `uint32_t`: arithmetic is modulo 2^32.

3. The bodies of the dispatched provider/dictionary operations
   (lines 144-458) as pure functions.  Windows API calls
   (`MultiByteToWideChar`, `ISpellChecker`, `ISpellCheckerFactory`) are
   external collaborators and enter as oracle records; a boolean flag records
   whether the backend spell checker was actually invoked.
-/

/-! ## Layer 1: the `CoThreadDispatcher` interleaving machine -/

/-- Payload of one dispatched unit of work: a callable returning a value,
a callable raising an error (captured by the `std::packaged_task` into the
future), or the destructor's stop request `[&]() { running = false; }`. -/
inductive Payload
  | ret (v : Int)
  | err (e : Nat)
  | stop
deriving DecidableEq

/-- Control point of the worker thread inside `threadProc` (lines 100-116). -/
inductive WPhase
  | start    -- thread spawned, before acquiring `processing_mutex`
  | hasLock  -- holds the mutex, at the `while (running)` loop head
  | waiting  -- inside `dispatch_begin.wait(lock)`: mutex released, in wait set
  | waking   -- notified, contending to re-acquire the mutex
  | run      -- holds the mutex, about to execute `dispatched_function()`
  | exited   -- `threadProc` returned (after `CoInitializer` teardown)
deriving DecidableEq

/-- Control point of a caller thread inside `dispatch` (lines 75-97). -/
inductive CPhase
  | ready    -- about to acquire `processing_mutex`
  | locked   -- holds the mutex; slot stored and `dispatch_begin` notified
  | waitFut  -- mutex released, blocked in `result.wait()`
  | done     -- `result.get()` returned
deriving DecidableEq

/-- Owner of `processing_mutex`. -/
inductive MutexOwner (n : Nat)
  | nobody
  | worker
  | caller (i : Fin n)
deriving DecidableEq

/-- Per-caller state: control point plus the shared state of the
`std::future` obtained from the packaged task (`none` = not ready). -/
structure CallerSt where
  phase : CPhase
  fut : Option Payload
deriving DecidableEq

/-- Whole-machine state for one `CoThreadDispatcher` and `n` caller threads.
`slot` is `dispatched_function`, tagged by the caller whose task it wraps;
`execLog` records, in order, the work items actually executed on the worker
thread. -/
structure MState (n : Nat) where
  worker : WPhase
  running : Bool
  mutex : MutexOwner n
  slot : Option (Fin n)
  callers : Fin n → CallerSt
  execLog : List (Fin n)

/-- Initial state: `running(false)` is set in the constructor's initializer
list, the worker thread has just been spawned, no caller has entered
`dispatch` yet. -/
def initMState (n : Nat) : MState n :=
  { worker := .start
    running := false
    mutex := .nobody
    slot := none
    callers := fun _ => { phase := .ready, fut := none }
    execLog := [] }

/-- One step of the worker thread (`threadProc`, lines 100-116), or `none`
when the worker is blocked.  `P i` is the payload of caller `i`'s callable.
Executing the slot sets the owning caller's future (the `packaged_task`
stores the value or captures the raised error) and, for the destructor's
stop request, clears `running`. -/
def wstep {n : Nat} (P : Fin n → Payload) (s : MState n) : Option (MState n) :=
  match s.worker with
  | .start =>
      -- acquire the mutex; CoInitializeEx; `running = true`
      if s.mutex = .nobody then
        some { s with worker := .hasLock, mutex := .worker, running := true }
      else none
  | .hasLock =>
      -- `while (running)` loop head
      if s.running then
        -- enter `dispatch_begin.wait(lock)`: release the mutex, join wait set
        some { s with worker := .waiting, mutex := .nobody }
      else
        -- leave the loop: CoInitializer teardown, release, thread exits
        some { s with worker := .exited, mutex := .nobody }
  | .waiting =>
      -- can only leave the wait set via a caller's `notify_all`
      none
  | .waking =>
      if s.mutex = .nobody then
        some { s with worker := .run, mutex := .worker }
      else none
  | .run =>
      match s.slot with
      | none => none   -- empty `std::function`: not reachable without a store
      | some i =>
          some { s with
            worker := .hasLock
            running := if P i = .stop then false else s.running
            callers := Function.update s.callers i
              { phase := (s.callers i).phase, fut := some (P i) }
            execLog := s.execLog ++ [i] }
  | .exited => none

/-- One step of caller thread `i` (`dispatch`, lines 75-97), or `none` when
it is blocked.  Storing `dispatched_function` and calling
`dispatch_begin.notify_all()` happen while holding the mutex, so they form
one atomic region; `notify_all` moves the worker out of the wait set only if
it is actually waiting (a `std::condition_variable` retains no history). -/
def cstep {n : Nat} (s : MState n) (i : Fin n) : Option (MState n) :=
  match (s.callers i).phase with
  | .ready =>
      if s.mutex = .nobody then
        some { s with
          mutex := .caller i
          slot := some i
          worker := if s.worker = .waiting then .waking else s.worker
          callers := Function.update s.callers i
            { phase := .locked, fut := (s.callers i).fut } }
      else none
  | .locked =>
      -- end of the scoped `unique_lock` block: release the mutex
      some { s with
        mutex := .nobody
        callers := Function.update s.callers i
          { phase := .waitFut, fut := (s.callers i).fut } }
  | .waitFut =>
      -- `result.wait()` / `result.get()`: ready only once the future is set
      match (s.callers i).fut with
      | some _ =>
          some { s with
            callers := Function.update s.callers i
              { phase := .done, fut := (s.callers i).fut } }
      | none => none
  | .done => none

/-- A scheduler picks a thread: `none` = the worker, `some i` = caller `i`. -/
def step {n : Nat} (P : Fin n → Payload) (s : MState n) :
    Option (Fin n) → Option (MState n)
  | none => wstep P s
  | some i => cstep s i

/-- Run a concrete schedule; `none` if some scheduled thread was blocked. -/
def runSched {n : Nat} (P : Fin n → Payload) :
    List (Option (Fin n)) → MState n → Option (MState n)
  | [], s => some s
  | t :: ts, s => (step P s t).bind (runSched P ts)

/-- A state is stuck when no thread can take a step (total deadlock). -/
def Stuck {n : Nat} (P : Fin n → Payload) (s : MState n) : Prop :=
  ∀ t : Option (Fin n), (step P s t).isNone = true

instance {n : Nat} (P : Fin n → Payload) (s : MState n) :
    Decidable (Stuck P s) := by
  unfold Stuck; infer_instance

/-- States reachable from `s₀` under payload assignment `P`. -/
def Reaches {n : Nat} (P : Fin n → Payload) (s₀ s : MState n) : Prop :=
  ∃ sched : List (Option (Fin n)), runSched P sched s₀ = some s

/-! ## Layer 2: the shared-dispatcher registry -/

/-- Ordering-relevant actions of the registry and of dispatcher
construction/destruction, recorded in a trace. -/
inductive RegEvt
  | acquire      -- `com_dispatcher_addref` entered (under `com_dispatcher_mutex`)
  | release      -- `com_dispatcher_release` entered (under `com_dispatcher_mutex`)
  | construct    -- `std::make_unique<CoThreadDispatcher>()`: worker thread started
  | stopWork     -- the destructor's stop request executed as a unit of work
  | comTeardown  -- `CoInitializer` destructor: root COM context torn down
  | threadExit   -- `threadProc` returns; the affinity thread ends
  | dtorReturn   -- `~CoThreadDispatcher` returns (after `dispatch_thread.join()`)
  | countZero    -- the reference count has just become zero
deriving DecidableEq

/-- Worker-visible state of a live dispatcher in the sequential model: the
`running` flag of `threadProc`. -/
structure CoThreadState where
  running : Bool
deriving DecidableEq

/-- State of a freshly constructed dispatcher whose thread has entered its
loop. -/
def mkCoThreadDispatcher : CoThreadState := { running := true }

/-- Process-wide registry state: the statics of lines 124-126 plus the event
trace.  `com_dispatcher_refcount` is a `uint32_t`, kept below `2^32`. -/
structure World where
  com_dispatcher_refcount : Nat
  com_dispatcher : Option CoThreadState
  events : List RegEvt
deriving DecidableEq

/-- Modulus of C `uint32_t` arithmetic. -/
def UINT32_MOD : Nat := 4294967296

/-- Event trace of `~CoThreadDispatcher` (lines 67-71): it dispatches
`[&]() { running = false; }` as a normal unit of work, the loop then falls
out of `while (running)` and the `CoInitializer` destructor runs before
`threadProc` returns, and `dispatch_thread.join()` completes before the
destructor returns. -/
def coThreadDtorEvents : List RegEvt :=
  [.stopWork, .comTeardown, .threadExit, .dtorReturn]

/-- `com_dispatcher_addref` (lines 128-134): one atomic transition under
`com_dispatcher_mutex`.  If the count is 0 a dispatcher is constructed
(starting its worker thread), then the `uint32_t` count is incremented. -/
def com_dispatcher_addref (w : World) : World :=
  if w.com_dispatcher_refcount = 0 then
    { com_dispatcher_refcount := (w.com_dispatcher_refcount + 1) % UINT32_MOD
      com_dispatcher := some mkCoThreadDispatcher
      events := w.events ++ [RegEvt.acquire, RegEvt.construct] }
  else
    { com_dispatcher_refcount := (w.com_dispatcher_refcount + 1) % UINT32_MOD
      com_dispatcher := w.com_dispatcher
      events := w.events ++ [RegEvt.acquire] }

/-- `com_dispatcher_release` (lines 136-142): one atomic transition under
`com_dispatcher_mutex`.  The test `refcount == 1` precedes the decrement;
when it holds, `com_dispatcher.reset()` runs the destructor to completion
(emitting `coThreadDtorEvents`) and only then does `--refcount` take the
count from 1 to 0 (`countZero` - the point where re-creation becomes
possible).  In every branch the new count is the `uint32_t` decrement, so a
release at count 0 wraps to `2^32 - 1`. -/
def com_dispatcher_release (w : World) : World :=
  if w.com_dispatcher_refcount = 1 then
    { com_dispatcher_refcount :=
        (w.com_dispatcher_refcount + (UINT32_MOD - 1)) % UINT32_MOD
      com_dispatcher := none
      events := w.events ++ [RegEvt.release] ++ coThreadDtorEvents
        ++ [RegEvt.countZero] }
  else
    { com_dispatcher_refcount :=
        (w.com_dispatcher_refcount + (UINT32_MOD - 1)) % UINT32_MOD
      com_dispatcher := w.com_dispatcher
      events := w.events ++ [RegEvt.release] }

/-- Registry invariant from the spec: the count is positive exactly when the
shared dispatcher object exists. -/
def RegInv (w : World) : Prop :=
  0 < w.com_dispatcher_refcount ↔ w.com_dispatcher.isSome = true

instance (w : World) : Decidable (RegInv w) := by
  unfold RegInv; infer_instance

/-- Iterate `com_dispatcher_addref`. -/
def iterAddref : Nat → World → World
  | 0, w => w
  | k + 1, w => iterAddref k (com_dispatcher_addref w)

/-! ## Layer 3: provider and dictionary operations -/

/-- `#define`-level HRESULT helpers: an HRESULT is negative iff it failed. -/
def FAILED (hr : Int) : Bool := hr < 0

/-- The success HRESULT. -/
def S_OK : Int := 0

/-- The alternate success HRESULT returned when there is nothing to report. -/
def S_FALSE : Int := 1

/-- Oracle for an `ISpellChecker` COM object: `check` yields the HRESULT of
`Check` plus whether the error enumeration is non-empty; `suggest` yields the
HRESULT of `Suggest` plus the enumerated suggestions (UTF-16 strings as code
unit lists). -/
structure SpellChecker where
  check : List Nat → Int × Bool
  suggest : List Nat → Int × List (List Nat)

/-- Oracle for an `ISpellCheckerFactory` COM object. `supportedLanguages` is
the HRESULT of `get_SupportedLanguages` plus the enumerated language tags. -/
structure SpellCheckerFactory where
  createSpellChecker : List Nat → Int × SpellChecker
  isSupported : List Nat → Bool
  supportedLanguages : Int × List (List Nat)

/-- Oracle for the Windows code-page conversion API: an abstract UTF-8 to
UTF-16 conversion and its inverse direction.  Only which inputs are passed
to them matters to the claims, never the converted contents. -/
structure WinEnv where
  multiByteToWideChar : List Nat → List Nat
  wideCharToMultiByte : List Nat → List Nat

/-- `ProviderUserData` (lines 149-152): the factory ComPtr is null (`none`)
when `CoCreateInstance` failed during `init_enchant_provider`. -/
structure ProviderUserData where
  spellCheckerFactory : Option SpellCheckerFactory

/-- `DictUserData` (lines 154-157). -/
structure DictUserData where
  spellChecker : SpellChecker

/-- MSDN MAX_WORD_LENGTH (line 146). -/
def kMaxWordLength : Nat := 128

/-- Line 147: `kMaxWordLength * 4`. -/
def kMaxUTF8WordLengthInBytes : Nat := kMaxWordLength * 4

/-- `strnlen_s`: length up to the first NUL, capped at `maxLen`. -/
def strnlen_s (s : List Nat) (maxLen : Nat) : Nat :=
  min (s.takeWhile (fun c => c != 0)).length maxLen

/-- `wcsnlen_s` on UTF-16 code unit lists. -/
def wcsnlen_s (s : List Nat) (maxLen : Nat) : Nat :=
  min (s.takeWhile (fun c => c != 0)).length maxLen

/-- `copy_utf8_to_utf16` (lines 170-185): rejects lengths above
`kMaxUTF8WordLengthInBytes`, otherwise converts the first `len` bytes via
`MultiByteToWideChar`. -/
def copy_utf8_to_utf16 (env : WinEnv) (u8str : List Nat) (len : Nat) :
    Option (List Nat) :=
  if kMaxUTF8WordLengthInBytes < len then none
  else some (env.multiByteToWideChar (u8str.take len))

/-- `copy_utf16_to_utf8` (lines 188-204): rejects lengths above
`kMaxWordLength`, otherwise converts via `WideCharToMultiByte`. -/
def copy_utf16_to_utf8 (env : WinEnv) (u16str : List Nat) (len : Nat) :
    Option (List Nat) :=
  if kMaxWordLength < len then none
  else some (env.wideCharToMultiByte (u16str.take len))

/-- `copy_string_list_from_enumerator` (lines 208-236) restricted to the
per-entry conversion: each enumerated UTF-16 string is converted with
`copy_utf16_to_utf8` at length `wcsnlen_s(s, kMaxWordLength) + 1`; a failed
conversion leaves a null (`none`) entry. -/
def copy_string_list_from_enumerator (env : WinEnv)
    (strings : List (List Nat)) : List (Option (List Nat)) :=
  strings.map (fun s => copy_utf16_to_utf8 env s (wcsnlen_s s kMaxWordLength + 1))

/-- `copy_from_enchant_tag_to_windows_language` (lines 239-254): convert the
tag (NUL-capped length plus terminator) and replace each underscore (0x5F)
with a hyphen (0x2D). -/
def copy_from_enchant_tag_to_windows_language (env : WinEnv) (tag : List Nat) :
    Option (List Nat) :=
  match copy_utf8_to_utf16 env tag (strnlen_s tag kMaxUTF8WordLengthInBytes + 1) with
  | none => none
  | some langTag => some (langTag.map (fun c => if c = 95 then 45 else c))

/-- `com_dispatcher->dispatch(work)` in the sequential model: the unit of
work runs on the affinity thread against the worker-visible state and its
result is returned to the caller. -/
def dispatchWork {α : Type} (d : CoThreadState)
    (work : CoThreadState → CoThreadState × α) : CoThreadState × α :=
  work d

/-- Body of the lambda of `windows_dict_check` (lines 262-285).  The second
component records whether `ISpellChecker::Check` was invoked. -/
def windows_dict_check_body (env : WinEnv) (dict : DictUserData)
    (word : List Nat) (len : Nat) : Int × Bool :=
  match copy_utf8_to_utf16 env word len with
  | none => (-1, false)
  | some utf16Word =>
      let r := dict.spellChecker.check utf16Word
      if FAILED r.1 then (-1, true)
      else if r.2 then (1, true) else (0, true)

/-- `windows_dict_check` (lines 257-286): the body dispatched on the
affinity thread. -/
def windows_dict_check (d : CoThreadState) (env : WinEnv) (dict : DictUserData)
    (word : List Nat) (len : Nat) : CoThreadState × (Int × Bool) :=
  dispatchWork d (fun s => (s, windows_dict_check_body env dict word len))

/-- Body of the lambda of `windows_dict_suggest` (lines 296-314).  The
second component records whether `ISpellChecker::Suggest` was invoked. -/
def windows_dict_suggest_body (env : WinEnv) (dict : DictUserData)
    (word : List Nat) (len : Nat) : Option (List (Option (List Nat))) × Bool :=
  match copy_utf8_to_utf16 env word len with
  | none => (none, false)
  | some utf16Word =>
      let r := dict.spellChecker.suggest utf16Word
      if FAILED r.1 then (none, true)
      else if r.1 = S_FALSE then (none, true)
      else (some (copy_string_list_from_enumerator env r.2), true)

/-- `windows_dict_suggest` (lines 290-315): the body dispatched on the
affinity thread. -/
def windows_dict_suggest (d : CoThreadState) (env : WinEnv) (dict : DictUserData)
    (word : List Nat) (len : Nat) :
    CoThreadState × (Option (List (Option (List Nat))) × Bool) :=
  dispatchWork d (fun s => (s, windows_dict_suggest_body env dict word len))

/-- Body of the lambda of `windows_provider_request_dict` (lines 379-404). -/
def windows_provider_request_dict_body (env : WinEnv) (prov : ProviderUserData)
    (tag : List Nat) : Option DictUserData :=
  match prov.spellCheckerFactory with
  | none => none
  | some factory =>
      match copy_from_enchant_tag_to_windows_language env tag with
      | none => none
      | some wtag =>
          let r := factory.createSpellChecker wtag
          if FAILED r.1 then none else some { spellChecker := r.2 }

/-- `windows_provider_request_dict` (lines 375-405): the body dispatched on
the affinity thread. -/
def windows_provider_request_dict (d : CoThreadState) (env : WinEnv)
    (prov : ProviderUserData) (tag : List Nat) :
    CoThreadState × Option DictUserData :=
  dispatchWork d (fun s => (s, windows_provider_request_dict_body env prov tag))

/-- Body of the lambda of `windows_provider_list_dicts` (lines 426-438). -/
def windows_provider_list_dicts_body (env : WinEnv) (prov : ProviderUserData) :
    Option (List (Option (List Nat))) :=
  match prov.spellCheckerFactory with
  | none => none
  | some factory =>
      if FAILED factory.supportedLanguages.1 then none
      else some (copy_string_list_from_enumerator env factory.supportedLanguages.2)

/-- `windows_provider_list_dicts` (lines 422-439): the body dispatched on
the affinity thread. -/
def windows_provider_list_dicts (d : CoThreadState) (env : WinEnv)
    (prov : ProviderUserData) :
    CoThreadState × Option (List (Option (List Nat))) :=
  dispatchWork d (fun s => (s, windows_provider_list_dicts_body env prov))

/-- Body of the lambda of `windows_provider_dictionary_exists`
(lines 446-457). -/
def windows_provider_dictionary_exists_body (env : WinEnv)
    (prov : ProviderUserData) (tag : List Nat) : Int :=
  match prov.spellCheckerFactory with
  | none => -1
  | some factory =>
      match copy_from_enchant_tag_to_windows_language env tag with
      | none => -1
      | some wtag => if factory.isSupported wtag then 1 else 0

/-- `windows_provider_dictionary_exists` (lines 442-458): the body
dispatched on the affinity thread. -/
def windows_provider_dictionary_exists (d : CoThreadState) (env : WinEnv)
    (prov : ProviderUserData) (tag : List Nat) : CoThreadState × Int :=
  dispatchWork d (fun s => (s, windows_provider_dictionary_exists_body env prov tag))

/-- The `EnchantProvider` object built by `init_enchant_provider`; only its
`user_data` carries claim-relevant state (the function table entries are the
operations defined above). -/
structure EnchantProviderObj where
  user_data : ProviderUserData

/-- `init_enchant_provider` (lines 515-551): addref the registry, dispatch
the creation unit of work, and release again if no provider came back.
`createOk` is the outcome of the dispatched allocation (the guard at
line 547 as written), `coCreateFactory` the result of `CoCreateInstance`
(`none` when it failed - the provider is still produced in that case, with a
null factory).  The creation body touches no dispatcher state, so the
dispatch reduces to its returned value. -/
def init_enchant_provider (w : World) (createOk : Bool)
    (coCreateFactory : Option SpellCheckerFactory) :
    World × Option EnchantProviderObj :=
  let w1 := com_dispatcher_addref w
  let newProvider : Option EnchantProviderObj :=
    if createOk then
      some { user_data := { spellCheckerFactory := coCreateFactory } }
    else none
  match newProvider with
  | none => (com_dispatcher_release w1, none)
  | some p => (w1, some p)

/-- `windows_provider_dispose` (lines 484-497): dispatch the deletion unit
of work (which frees the provider and its user data and touches no registry
state), then release the registry reference exactly once. -/
def windows_provider_dispose (w : World) (_provider : EnchantProviderObj) :
    World :=
  com_dispatcher_release w

/-! ## Concrete machine runs and fixed inputs used by the theorems -/

/-- One caller whose callable returns 42 (`dispatch(() => 42)`). -/
def P1 : Fin 1 → Payload := fun _ => .ret 42

/-- Schedule realizing the startup race: the caller enters `dispatch`,
stores the slot and notifies (lost: the worker has not reached its wait
yet), releases the mutex and blocks on the future; only then does the
worker thread acquire the mutex, set `running` and enter the condition
wait. -/
def sched1 : List (Option (Fin 1)) := [some 0, some 0, none, none]

/-- The state reached by `sched1`. -/
def c1Deadlock : MState 1 := (runSched P1 sched1 (initMState 1)).getD (initMState 1)

/-- Two callers whose callables return 1 and 2. -/
def P2 : Fin 2 → Payload := fun i => if i = 0 then .ret 1 else .ret 2

/-- Schedule realizing the handoff race: the worker reaches its wait, caller
0 hands off and notifies, and before the woken worker re-acquires the mutex
caller 1 acquires it and overwrites `dispatched_function`; the worker then
executes only caller 1's unit of work. -/
def sched2 : List (Option (Fin 2)) :=
  [none, none, some 0, some 0, some 1, some 1, none, none, none, some 1]

/-- The state reached by `sched2`. -/
def c2Deadlock : MState 2 := (runSched P2 sched2 (initMState 2)).getD (initMState 2)

/-- The state reached by the first six steps of `sched2`: caller 1 has
occupied the single pending-work slot while caller 0's unit of work has not
executed. -/
def c2Overwrite : MState 2 :=
  (runSched P2 (sched2.take 6) (initMState 2)).getD (initMState 2)

/-- One caller whose callable raises error 7. -/
def P4 : Fin 1 → Payload := fun _ => .err 7

/-- A race-free schedule: the worker reaches its wait before the dispatch. -/
def sched4 : List (Option (Fin 1)) :=
  [none, none, some 0, some 0, none, none, some 0]

/-- The state reached by `sched4`. -/
def c4Final : MState 1 := (runSched P4 sched4 (initMState 1)).getD (initMState 1)

/-- Master invariant of the dispatcher machine: a caller's future is unset
or holds exactly its own payload; an executed caller's future holds its
payload; a finished caller's future is set; `running` is cleared only by an
executed stop request; the worker exits only with `running` cleared. -/
def MInv {n : Nat} (P : Fin n → Payload) (s : MState n) : Prop :=
  (∀ i : Fin n,
    ((s.callers i).fut = none ∨ (s.callers i).fut = some (P i)) ∧
    (i ∈ s.execLog → (s.callers i).fut = some (P i)) ∧
    ((s.callers i).phase = .done → (s.callers i).fut ≠ none)) ∧
  (s.running = false → s.worker = .start ∨ Payload.stop ∈ s.execLog.map P) ∧
  (s.worker = .exited → s.running = false)

/-- Registry state with count 0 and no dispatcher. -/
def regW0 : World :=
  { com_dispatcher_refcount := 0, com_dispatcher := none, events := [] }

/-- Registry state at the top of the `uint32_t` range, dispatcher live. -/
def regWMax : World :=
  { com_dispatcher_refcount := 4294967295
    com_dispatcher := some mkCoThreadDispatcher
    events := [] }

/-- Registry state with one live reference. -/
def regW1 : World :=
  { com_dispatcher_refcount := 1
    com_dispatcher := some mkCoThreadDispatcher
    events := [] }

/-- Registry state with two live references. -/
def regW2 : World :=
  { com_dispatcher_refcount := 2
    com_dispatcher := some mkCoThreadDispatcher
    events := [] }

/-- A provider whose `CoCreateInstance` failed: null factory. -/
def provFailed : EnchantProviderObj := { user_data := { spellCheckerFactory := none } }

/-- A dispatcher state whose thread is in its loop. -/
def dRun : CoThreadState := { running := true }

/-- A conversion oracle that copies code units through unchanged. -/
def idEnv : WinEnv :=
  { multiByteToWideChar := fun s => s, wideCharToMultiByte := fun s => s }

/-- A spell checker oracle whose calls all succeed and report no errors. -/
def noopChecker : SpellChecker :=
  { check := fun _ => (0, false), suggest := fun _ => (0, []) }

/-- A dictionary holding `noopChecker`. -/
def noopDict : DictUserData := { spellChecker := noopChecker }

/-! ## Invariant lemmas for the dispatcher machine -/

lemma initMInv (n : Nat) (P : Fin n → Payload) : MInv P (initMState n) := by
  refine ⟨fun i => ⟨Or.inl rfl, ?_, ?_⟩, fun _ => Or.inl rfl, fun h => by cases h⟩
  · intro h; simp [initMState] at h
  · intro h; simp [initMState] at h

lemma wstep_MInv {n : Nat} {P : Fin n → Payload} {s t : MState n}
    (h : MInv P s) (hs : wstep P s = some t) : MInv P t := by
  obtain ⟨h1, h2, h3⟩ := h
  unfold wstep at hs
  split at hs
  · -- worker = .start
    split at hs
    · cases hs
      exact ⟨h1, fun hr => by simp at hr, fun he => by simp at he⟩
    · cases hs
  · -- worker = .hasLock
    rename_i hw
    split at hs
    · cases hs
      refine ⟨h1, fun hr => ?_, fun he => by simp at he⟩
      rcases h2 hr with h | h
      · rw [hw] at h; cases h
      · exact Or.inr h
    · cases hs
      rename_i hrun
      refine ⟨h1, fun _ => ?_, fun _ => by simpa using hrun⟩
      rcases h2 (by simpa using hrun) with h | h
      · rw [hw] at h; cases h
      · exact Or.inr h
  · cases hs
  · -- worker = .waking
    rename_i hw
    split at hs
    · cases hs
      refine ⟨h1, fun hr => ?_, fun he => by simp at he⟩
      rcases h2 hr with h | h
      · rw [hw] at h; cases h
      · exact Or.inr h
    · cases hs
  · -- worker = .run
    rename_i hw
    split at hs
    · cases hs
    · rename_i i hslot
      cases hs
      refine ⟨fun j => ?_, fun hr => ?_, fun he => by simp at he⟩
      · by_cases hij : j = i
        · subst hij
          simp [Function.update_same]
        · simp only [Function.update_noteq hij]
          obtain ⟨ha, hb, hc⟩ := h1 j
          refine ⟨ha, fun hm => ?_, hc⟩
          have : j ∈ s.execLog := by
            rcases List.mem_append.mp hm with h | h
            · exact h
            · simp at h; exact absurd h hij
          exact hb this
      · simp only [List.map_append]
        by_cases hstop : P i = .stop
        · exact Or.inr (by simp [hstop])
        · simp only [hstop, if_false] at hr
          rcases h2 hr with h | h
          · rw [hw] at h; cases h
          · exact Or.inr (List.mem_append.mpr (Or.inl h))
  · cases hs

lemma cstep_MInv {n : Nat} {P : Fin n → Payload} {s t : MState n} {i : Fin n}
    (h : MInv P s) (hs : cstep s i = some t) : MInv P t := by
  obtain ⟨h1, h2, h3⟩ := h
  unfold cstep at hs
  split at hs
  · -- phase ready
    split at hs
    · cases hs
      refine ⟨fun j => ?_, fun hr => ?_, fun he => ?_⟩
      · by_cases hij : j = i
        · subst hij
          simp only [Function.update_same]
          obtain ⟨ha, hb, hc⟩ := h1 j
          exact ⟨ha, hb, fun hd => by cases hd⟩
        · simp only [Function.update_noteq hij]; exact h1 j
      · rcases h2 hr with h | h
        · rw [h]; simp
        · exact Or.inr h
      · -- worker' = exited → running false
        split at he
        · simp at he
        · exact h3 he
    · cases hs
  · -- phase locked
    cases hs
    refine ⟨fun j => ?_, h2, h3⟩
    by_cases hij : j = i
    · subst hij
      simp only [Function.update_same]
      obtain ⟨ha, hb, hc⟩ := h1 j
      exact ⟨ha, hb, fun hd => by cases hd⟩
    · simp only [Function.update_noteq hij]; exact h1 j
  · -- phase waitFut, future ready
    split at hs
    · rename_i hfut
      cases hs
      refine ⟨fun j => ?_, h2, h3⟩
      by_cases hij : j = i
      · subst hij
        simp only [Function.update_same]
        obtain ⟨ha, hb, hc⟩ := h1 j
        exact ⟨ha, hb, fun _ => by rw [hfut]; simp⟩
      · simp only [Function.update_noteq hij]; exact h1 j
    · cases hs
  · cases hs

lemma runSched_MInv {n : Nat} {P : Fin n → Payload} :
    ∀ (sched : List (Option (Fin n))) {s t : MState n},
      MInv P s → runSched P sched s = some t → MInv P t := by
  intro sched
  induction sched with
  | nil => intro s t h hr; cases hr; exact h
  | cons a ts ih =>
    intro s t h hr
    simp only [runSched] at hr
    cases ha : step P s a with
    | none => rw [ha] at hr; cases hr
    | some s1 =>
      rw [ha] at hr
      have h1 : MInv P s1 := by
        cases a with
        | none => exact wstep_MInv h ha
        | some i => exact cstep_MInv h ha
      exact ih h1 hr

/-! ## Projection lemmas for the registry -/

lemma addref_refcount (w : World) :
    (com_dispatcher_addref w).com_dispatcher_refcount
      = (w.com_dispatcher_refcount + 1) % UINT32_MOD := by
  by_cases h : w.com_dispatcher_refcount = 0 <;>
    simp [com_dispatcher_addref, h]

lemma addref_dispatcher (w : World) :
    (com_dispatcher_addref w).com_dispatcher
      = (if w.com_dispatcher_refcount = 0 then some mkCoThreadDispatcher
         else w.com_dispatcher) := by
  by_cases h : w.com_dispatcher_refcount = 0 <;>
    simp [com_dispatcher_addref, h]

lemma addref_events (w : World) :
    (com_dispatcher_addref w).events
      = w.events ++ [RegEvt.acquire]
          ++ (if w.com_dispatcher_refcount = 0 then [RegEvt.construct] else []) := by
  by_cases h : w.com_dispatcher_refcount = 0 <;>
    simp [com_dispatcher_addref, h]

lemma release_refcount (w : World) :
    (com_dispatcher_release w).com_dispatcher_refcount
      = (w.com_dispatcher_refcount + (UINT32_MOD - 1)) % UINT32_MOD := by
  by_cases h : w.com_dispatcher_refcount = 1 <;>
    simp [com_dispatcher_release, h]

lemma release_dispatcher (w : World) :
    (com_dispatcher_release w).com_dispatcher
      = (if w.com_dispatcher_refcount = 1 then none else w.com_dispatcher) := by
  by_cases h : w.com_dispatcher_refcount = 1 <;>
    simp [com_dispatcher_release, h]

lemma release_events (w : World) :
    (com_dispatcher_release w).events
      = w.events ++ [RegEvt.release]
          ++ (if w.com_dispatcher_refcount = 1
              then coThreadDtorEvents ++ [RegEvt.countZero] else []) := by
  by_cases h : w.com_dispatcher_refcount = 1 <;>
    simp [com_dispatcher_release, h]

lemma iterAddref_pos (k : Nat) : ∀ (w : World),
    0 < w.com_dispatcher_refcount →
    w.com_dispatcher_refcount + k < UINT32_MOD →
    (iterAddref k w).com_dispatcher_refcount = w.com_dispatcher_refcount + k ∧
    (iterAddref k w).com_dispatcher = w.com_dispatcher ∧
    (iterAddref k w).events.count RegEvt.construct
      = w.events.count RegEvt.construct := by
  induction k with
  | zero => intro w hpos hlt; exact ⟨by simp [iterAddref], rfl, rfl⟩
  | succ k ih =>
    intro w hpos hlt
    have hne : ¬ w.com_dispatcher_refcount = 0 := by omega
    have hcnt : (com_dispatcher_addref w).com_dispatcher_refcount
        = w.com_dispatcher_refcount + 1 := by
      rw [addref_refcount]
      exact Nat.mod_eq_of_lt (by omega)
    have hd : (com_dispatcher_addref w).com_dispatcher = w.com_dispatcher := by
      rw [addref_dispatcher]; simp [hne]
    have hev : (com_dispatcher_addref w).events.count RegEvt.construct
        = w.events.count RegEvt.construct := by
      rw [addref_events]
      simp [hne, List.count_append, List.count_cons]
    have hrec := ih (com_dispatcher_addref w) (by rw [hcnt]; omega) (by rw [hcnt]; omega)
    rw [iterAddref]
    refine ⟨?_, ?_, ?_⟩
    · rw [hrec.1, hcnt]; omega
    · rw [hrec.2.1, hd]
    · rw [hrec.2.2, hev]

/-! ## Claims -/

/-- C1: the claim says `dispatch(f)` executes `f` on the affinity thread and
returns its result (42 for `() => 42`) without a crash or hang.  The code
violates this: `dispatch_begin.wait(lock)` has no predicate, so a
notification sent before the worker thread has entered its wait is lost.
Under schedule `sched1` — the single `dispatch(() => 42)` wins the race to
`processing_mutex` against the newly spawned worker thread — the machine
reaches a total deadlock in which the callable never executed and the
caller is blocked forever in `result.wait()` while the worker waits forever
for a notification that already happened. -/
theorem thm_c1_dispatch_deadlock :
    P1 0 = Payload.ret 42 ∧
    runSched P1 sched1 (initMState 1) = some c1Deadlock ∧
    Stuck P1 c1Deadlock ∧
    c1Deadlock.execLog = [] ∧
    (c1Deadlock.callers 0).phase = CPhase.waitFut ∧
    (c1Deadlock.callers 0).fut = none ∧
    c1Deadlock.worker = WPhase.waiting ∧
    c1Deadlock.slot = some 0 :=
  ⟨rfl, rfl, by decide, rfl, rfl, rfl, rfl, rfl⟩

/-- C2: the claim says N concurrently-issued `dispatch` calls execute
exactly N units of work and a second submission waits for the first to
complete before occupying the single pending-work slot.  The code violates
this: after the first caller's handoff and `notify_all`, the second caller
can acquire `processing_mutex` before the woken worker does and overwrite
`dispatched_function`.  Under schedule `sched2` (N = 2): after six steps
caller 1 occupies the slot while caller 0's unit has not executed
(`c2Overwrite`), and the completed run is a total deadlock in which exactly
one of the two units executed, caller 1 returned, and caller 0 is blocked
forever. -/
theorem thm_c2_serialization_violated :
    runSched P2 (sched2.take 6) (initMState 2) = some c2Overwrite ∧
    c2Overwrite.slot = some 1 ∧
    c2Overwrite.execLog = [] ∧
    runSched P2 sched2 (initMState 2) = some c2Deadlock ∧
    Stuck P2 c2Deadlock ∧
    c2Deadlock.execLog = [1] ∧
    (c2Deadlock.callers 0).phase = CPhase.waitFut ∧
    (c2Deadlock.callers 0).fut = none ∧
    (c2Deadlock.callers 1).phase = CPhase.done :=
  ⟨rfl, rfl, rfl, rfl, by decide, rfl, rfl, rfl, rfl⟩

/-- C3 counterexample: the registry invariant (count > 0 iff the dispatcher
exists) is not preserved by every `com_dispatcher_release` and
`com_dispatcher_addref` call.  From count 0 with no dispatcher, `release`
wraps the `uint32_t` count to 2^32 - 1 with no dispatcher; from count
2^32 - 1 with a live dispatcher, `addref` wraps the count to 0 with the
dispatcher still live. -/
theorem thm_c3_counterexample :
    (RegInv regW0 ∧ ¬ RegInv (com_dispatcher_release regW0)) ∧
    (RegInv regWMax ∧ ¬ RegInv (com_dispatcher_addref regWMax)) :=
  ⟨⟨by decide, by decide⟩, by decide, by decide⟩

/-- C3 amended: in every state satisfying the invariant, the invariant is
preserved by `com_dispatcher_addref` whenever the count is below 2^32 - 1
and by `com_dispatcher_release` whenever the count is positive (each call
is a single atomic transition, performed under `com_dispatcher_mutex`). -/
theorem thm_c3_amended (w : World)
    (hrep : w.com_dispatcher_refcount < UINT32_MOD)
    (hinv : RegInv w) :
    (w.com_dispatcher_refcount < UINT32_MOD - 1 →
        RegInv (com_dispatcher_addref w)) ∧
    (0 < w.com_dispatcher_refcount → RegInv (com_dispatcher_release w)) := by
  unfold RegInv at hinv ⊢
  constructor
  · intro hlt
    rw [addref_refcount, addref_dispatcher]
    by_cases h0 : w.com_dispatcher_refcount = 0
    · simp [h0, UINT32_MOD]
    · have : (w.com_dispatcher_refcount + 1) % UINT32_MOD
          = w.com_dispatcher_refcount + 1 := Nat.mod_eq_of_lt (by omega)
      rw [this]
      simp only [h0, if_false]
      constructor
      · intro _; exact hinv.mp (by omega)
      · intro _; omega
  · intro hpos
    rw [release_refcount, release_dispatcher]
    by_cases h1 : w.com_dispatcher_refcount = 1
    · simp [h1, UINT32_MOD]
    · have : (w.com_dispatcher_refcount + (UINT32_MOD - 1)) % UINT32_MOD
          = w.com_dispatcher_refcount - 1 := by
        have : w.com_dispatcher_refcount + (UINT32_MOD - 1)
            = (w.com_dispatcher_refcount - 1) + UINT32_MOD := by omega
        rw [this, Nat.add_mod_right]
        exact Nat.mod_eq_of_lt (by omega)
      rw [this]
      simp only [h1, if_false]
      constructor
      · intro _; exact hinv.mp (by omega)
      · intro _; omega

/-- C3 witness: the amended preservation at a concrete state with two live
references. -/
theorem thm_c3_witness :
    (regW2.com_dispatcher_refcount < UINT32_MOD - 1 ∧
      0 < regW2.com_dispatcher_refcount ∧ RegInv regW2) ∧
    RegInv (com_dispatcher_addref regW2) ∧
    RegInv (com_dispatcher_release regW2) := by
  have h := thm_c3_amended regW2 (by decide) (by decide)
  exact ⟨⟨by decide, by decide, by decide⟩, h.1 (by decide), h.2 (by decide)⟩

/-- C4: a dispatched callable that raises has its error captured into the
caller's future exactly as raised (so the caller of `dispatch` observes
that error as if the call had been made locally, via `result.get()`), and
work failure never terminates the worker: in every reachable state the
worker has exited only if an explicit stop request was executed as a unit
of work — never because an executed payload was an error. -/
theorem thm_c4_error_propagation {n : Nat} (P : Fin n → Payload)
    (sched : List (Option (Fin n))) (s : MState n) (i : Fin n) (e : Nat)
    (hrun : runSched P sched (initMState n) = some s)
    (herr : P i = Payload.err e) :
    (i ∈ s.execLog → (s.callers i).fut = some (Payload.err e)) ∧
    ((s.callers i).phase = CPhase.done →
        (s.callers i).fut = some (Payload.err e)) ∧
    (s.worker = WPhase.exited → Payload.stop ∈ s.execLog.map P) := by
  have hinv := runSched_MInv sched (initMInv n P) hrun
  obtain ⟨h1, h2, h3⟩ := hinv
  obtain ⟨ha, hb, hc⟩ := h1 i
  refine ⟨fun hm => by rw [hb hm, herr], fun hd => ?_, fun he => ?_⟩
  · rcases ha with h | h
    · exact absurd h (hc hd)
    · rw [h, herr]
  · rcases h2 (h3 he) with h | h
    · rw [he] at h; cases h
    · exact h

/-- C4 witness: under a race-free schedule, a callable raising error 7
completes with the caller observing exactly that error while the worker is
still live with `running` set. -/
theorem thm_c4_witness :
    P4 0 = Payload.err 7 ∧
    (c4Final.callers 0).phase = CPhase.done ∧
    (c4Final.callers 0).fut = some (Payload.err 7) ∧
    c4Final.worker ≠ WPhase.exited ∧
    c4Final.running = true := by
  have h := thm_c4_error_propagation P4 sched4 c4Final 0 7 rfl rfl
  exact ⟨rfl, rfl, h.2.1 rfl, by decide, rfl⟩

/-- C5: `com_dispatcher_release` decrements the reference count (`uint32_t`
decrement in general, count - 1 whenever the count is positive), and when
the count reaches 0 — that is, exactly on a call made at count 1 — it
destroys the dispatcher before returning: the returned state has no
dispatcher and its trace ends with the destructor's events (the dispatched
stop request, the COM teardown, the thread exit, the destructor's return)
followed by the count reaching zero, all emitted within the call. -/
theorem thm_c5_release (w : World)
    (hrep : w.com_dispatcher_refcount < UINT32_MOD) :
    ((com_dispatcher_release w).com_dispatcher_refcount
        = (w.com_dispatcher_refcount + (UINT32_MOD - 1)) % UINT32_MOD) ∧
    (0 < w.com_dispatcher_refcount →
        (com_dispatcher_release w).com_dispatcher_refcount
          = w.com_dispatcher_refcount - 1) ∧
    (w.com_dispatcher_refcount = 1 →
        (com_dispatcher_release w).com_dispatcher_refcount = 0 ∧
        (com_dispatcher_release w).com_dispatcher = none ∧
        (com_dispatcher_release w).events
          = w.events ++ [RegEvt.release] ++ coThreadDtorEvents
              ++ [RegEvt.countZero]) := by
  have hdec : 0 < w.com_dispatcher_refcount →
      (w.com_dispatcher_refcount + (UINT32_MOD - 1)) % UINT32_MOD
        = w.com_dispatcher_refcount - 1 := by
    intro hpos
    have h : w.com_dispatcher_refcount + (UINT32_MOD - 1)
        = (w.com_dispatcher_refcount - 1) + UINT32_MOD := by
      unfold UINT32_MOD at *; omega
    rw [h, Nat.add_mod_right]
    exact Nat.mod_eq_of_lt (by unfold UINT32_MOD at *; omega)
  refine ⟨release_refcount w,
    fun hpos => by rw [release_refcount]; exact hdec hpos,
    fun h1 => ⟨?_, ?_, ?_⟩⟩
  · rw [release_refcount, h1]; decide
  · rw [release_dispatcher, h1]; simp
  · rw [release_events, h1]
    simp

/-- C5 witness: releasing the last reference at a concrete state. -/
theorem thm_c5_witness :
    (com_dispatcher_release regW1).com_dispatcher_refcount = 0 ∧
    (com_dispatcher_release regW1).com_dispatcher = none ∧
    (com_dispatcher_release regW1).events
      = [RegEvt.release] ++ coThreadDtorEvents ++ [RegEvt.countZero] := by
  have h := (thm_c5_release regW1 (by decide)).2.2 rfl
  exact ⟨h.1, h.2.1, by simpa using h.2.2⟩

/-- C6: `com_dispatcher_addref` increments the count, records a
construction (which starts the affinity thread) exactly when the count was
0, and leaves the shared dispatcher available; N acquisitions from count 0
perform exactly one construction and leave the count at N (N below 2^32).
-/
theorem thm_c6_addref (w v : World) (N : Nat)
    (hv : v.com_dispatcher_refcount + 1 < UINT32_MOD)
    (h0 : w.com_dispatcher_refcount = 0)
    (hN1 : 1 ≤ N) (hN : N < UINT32_MOD) :
    ((com_dispatcher_addref v).com_dispatcher_refcount
        = v.com_dispatcher_refcount + 1) ∧
    ((com_dispatcher_addref v).events
        = v.events ++ [RegEvt.acquire]
            ++ (if v.com_dispatcher_refcount = 0 then [RegEvt.construct] else [])) ∧
    ((com_dispatcher_addref v).com_dispatcher
        = if v.com_dispatcher_refcount = 0 then some mkCoThreadDispatcher
          else v.com_dispatcher) ∧
    (RegInv v → (com_dispatcher_addref v).com_dispatcher.isSome = true) ∧
    ((iterAddref N w).com_dispatcher_refcount = N) ∧
    ((iterAddref N w).com_dispatcher = some mkCoThreadDispatcher) ∧
    ((iterAddref N w).events.count RegEvt.construct
        = w.events.count RegEvt.construct + 1) := by
  have hone : (com_dispatcher_addref w).com_dispatcher_refcount = 1 := by
    rw [addref_refcount, h0]
    exact Nat.mod_eq_of_lt (by unfold UINT32_MOD; omega)
  have hwd : (com_dispatcher_addref w).com_dispatcher
      = some mkCoThreadDispatcher := by
    rw [addref_dispatcher, h0]; simp
  have hwe : (com_dispatcher_addref w).events.count RegEvt.construct
      = w.events.count RegEvt.construct + 1 := by
    rw [addref_events, h0]
    simp [List.count_append, List.count_cons]
  refine ⟨?_, addref_events v, addref_dispatcher v, ?_, ?_⟩
  · rw [addref_refcount]
    exact Nat.mod_eq_of_lt (by omega)
  · intro hinv
    rw [addref_dispatcher]
    by_cases hz : v.com_dispatcher_refcount = 0
    · simp [hz]
    · simp only [hz, if_false]
      unfold RegInv at hinv
      exact hinv.mp (by omega)
  · cases N with
    | zero => omega
    | succ k =>
      rw [iterAddref]
      have hrec := iterAddref_pos k (com_dispatcher_addref w)
        (by rw [hone]; omega) (by rw [hone]; omega)
      refine ⟨?_, ?_, ?_⟩
      · rw [hrec.1, hone]; omega
      · rw [hrec.2.1, hwd]
      · rw [hrec.2.2, hwe]

/-- C6 witness: three acquisitions from the empty registry construct the
dispatcher once and leave the count at 3. -/
theorem thm_c6_witness :
    (iterAddref 3 regW0).com_dispatcher_refcount = 3 ∧
    (iterAddref 3 regW0).com_dispatcher = some mkCoThreadDispatcher ∧
    (iterAddref 3 regW0).events.count RegEvt.construct = 1 := by
  have h := thm_c6_addref regW0 regW0 3 (by decide) rfl (by decide) (by decide)
  exact ⟨h.2.2.2.2.1, h.2.2.2.2.2.1, by simpa using h.2.2.2.2.2.2⟩

/-- C7: destroying the dispatcher on the last release emits, in order and
after everything already recorded: the shutdown request executed as a
normal dispatched unit of work, the teardown of the thread-affine COM
context, the affinity thread's exit, the destructor's return, and only then
the count reaching zero (the point after which a future acquire may
re-create the dispatcher).  The whole sequence is appended within the one
`com_dispatcher_release` call, under the registry mutex. -/
theorem thm_c7_shutdown_order (w : World)
    (h1 : w.com_dispatcher_refcount = 1) :
    coThreadDtorEvents
      = [RegEvt.stopWork, RegEvt.comTeardown, RegEvt.threadExit,
         RegEvt.dtorReturn] ∧
    (com_dispatcher_release w).events
      = w.events ++ [RegEvt.release, RegEvt.stopWork, RegEvt.comTeardown,
          RegEvt.threadExit, RegEvt.dtorReturn, RegEvt.countZero] ∧
    (com_dispatcher_release w).com_dispatcher_refcount = 0 ∧
    (com_dispatcher_release w).com_dispatcher = none := by
  refine ⟨rfl, ?_, ?_, ?_⟩
  · rw [release_events, h1]
    simp [coThreadDtorEvents]
  · rw [release_refcount, h1]; decide
  · rw [release_dispatcher, h1]; simp

/-- C7 witness: the shutdown trace at a concrete one-reference state. -/
theorem thm_c7_witness :
    (com_dispatcher_release regW1).events
      = [RegEvt.release, RegEvt.stopWork, RegEvt.comTeardown,
         RegEvt.threadExit, RegEvt.dtorReturn, RegEvt.countZero] ∧
    (com_dispatcher_release regW1).com_dispatcher = none := by
  have h := thm_c7_shutdown_order regW1 rfl
  exact ⟨by simpa using h.2.1, h.2.2.2⟩

/-- C8: when the spell checker factory is absent (setup failed),
`windows_provider_request_dict` and `windows_provider_list_dicts` return
null and `windows_provider_dictionary_exists` returns -1, all without
touching the dispatcher state, so the dispatcher keeps running and any
subsequently posted unit of work still executes; moreover a failed
`CoCreateInstance` in `init_enchant_provider` still produces a provider
(with a null factory) rather than aborting. -/
theorem thm_c8_setup_failure (d : CoThreadState) (env : WinEnv)
    (prov : ProviderUserData) (tag : List Nat)
    (hf : prov.spellCheckerFactory = none) :
    windows_provider_request_dict d env prov tag = (d, none) ∧
    windows_provider_list_dicts d env prov = (d, none) ∧
    windows_provider_dictionary_exists d env prov tag = (d, -1) ∧
    (windows_provider_request_dict d env prov tag).1.running = d.running ∧
    (∀ {α : Type} (work : CoThreadState → CoThreadState × α),
        dispatchWork (windows_provider_request_dict d env prov tag).1 work
          = work d) ∧
    (∀ (w : World) (f : Option SpellCheckerFactory),
        (init_enchant_provider w true f).2
          = some { user_data := { spellCheckerFactory := f } }) := by
  refine ⟨?_, ?_, ?_, ?_, ?_, fun w f => rfl⟩ <;>
    simp [windows_provider_request_dict, windows_provider_list_dicts,
      windows_provider_dictionary_exists, windows_provider_request_dict_body,
      windows_provider_list_dicts_body, windows_provider_dictionary_exists_body,
      dispatchWork, hf]

/-- C8 witness: the three operations at a concrete factory-less provider. -/
theorem thm_c8_witness :
    windows_provider_request_dict dRun idEnv provFailed.user_data [101, 110]
      = (dRun, none) ∧
    windows_provider_list_dicts dRun idEnv provFailed.user_data = (dRun, none) ∧
    windows_provider_dictionary_exists dRun idEnv provFailed.user_data [101, 110]
      = (dRun, -1) := by
  have h := thm_c8_setup_failure dRun idEnv provFailed.user_data [101, 110] rfl
  exact ⟨h.1, h.2.1, h.2.2.1⟩

/-- C9: `init_enchant_provider` records exactly one acquire, as its first
action; it records no release when it produces a provider and exactly one
release when it does not (the partial-construction path); it produces a
provider exactly when the dispatched creation succeeds; and
`windows_provider_dispose` records exactly one release. -/
theorem thm_c9_pairing (w : World) (createOk : Bool)
    (f : Option SpellCheckerFactory) :
    ((init_enchant_provider w createOk f).1.events.count RegEvt.acquire
        = w.events.count RegEvt.acquire + 1) ∧
    ((init_enchant_provider w createOk f).2.isSome = true →
        (init_enchant_provider w createOk f).1.events.count RegEvt.release
          = w.events.count RegEvt.release) ∧
    ((init_enchant_provider w createOk f).2 = none →
        (init_enchant_provider w createOk f).1.events.count RegEvt.release
          = w.events.count RegEvt.release + 1) ∧
    ((init_enchant_provider w createOk f).2.isSome = createOk) ∧
    (((init_enchant_provider w createOk f).1.events.drop w.events.length).head?
        = some RegEvt.acquire) ∧
    (∀ p : EnchantProviderObj,
        (windows_provider_dispose w p).events.count RegEvt.release
          = w.events.count RegEvt.release + 1) := by
  have hc_ac : ∀ v : World, (com_dispatcher_addref v).events.count RegEvt.acquire
      = v.events.count RegEvt.acquire + 1 := by
    intro v
    rw [addref_events]
    split <;> simp [List.count_append, List.count_cons]
  have hc_rl : ∀ v : World, (com_dispatcher_addref v).events.count RegEvt.release
      = v.events.count RegEvt.release := by
    intro v
    rw [addref_events]
    split <;> simp [List.count_append, List.count_cons]
  have hr_rl : ∀ v : World, (com_dispatcher_release v).events.count RegEvt.release
      = v.events.count RegEvt.release + 1 := by
    intro v
    rw [release_events]
    split <;> simp [List.count_append, List.count_cons, coThreadDtorEvents]
  cases createOk with
  | true =>
    have h1 : init_enchant_provider w true f
        = (com_dispatcher_addref w,
           some { user_data := { spellCheckerFactory := f } }) := rfl
    rw [h1]
    refine ⟨hc_ac w, fun _ => hc_rl w, ?_, rfl, ?_, fun p => hr_rl w⟩
    · intro h
      simp at h
    · rw [addref_events]
      simp [List.append_assoc, List.drop_left]
  | false =>
    have h2 : init_enchant_provider w false f
        = (com_dispatcher_release (com_dispatcher_addref w), none) := rfl
    rw [h2]
    refine ⟨?_, ?_, fun _ => ?_, rfl, ?_, fun p => hr_rl w⟩
    · have hra : ∀ v : World,
          (com_dispatcher_release v).events.count RegEvt.acquire
            = v.events.count RegEvt.acquire := by
        intro v
        rw [release_events]
        split <;> simp [List.count_append, List.count_cons, coThreadDtorEvents]
      rw [hra, hc_ac]
    · intro h
      simp at h
    · rw [hr_rl, hc_rl]
    · rw [release_events, addref_events]
      simp [List.append_assoc, List.drop_left]

/-- C9 witness: concrete acquisitions and releases balance along both the
failure path and the success-plus-dispose path. -/
theorem thm_c9_witness :
    (init_enchant_provider regW0 false none).1.events.count RegEvt.release = 1 ∧
    (init_enchant_provider regW0 true none).1.events.count RegEvt.release = 0 ∧
    (init_enchant_provider regW0 true none).2.isSome = true ∧
    (windows_provider_dispose regW0 provFailed).events.count RegEvt.release = 1 := by
  have h1 := thm_c9_pairing regW0 false none
  have h2 := thm_c9_pairing regW0 true none
  refine ⟨?_, ?_, rfl, ?_⟩
  · have := h1.2.2.1 rfl
    simpa using this
  · have := h2.2.1 rfl
    simpa using this
  · have := h1.2.2.2.2.2 provFailed
    simpa using this

/-- C10: for any word whose given length exceeds
`kMaxUTF8WordLengthInBytes` (which is 4 * kMaxWordLength = 512),
`windows_dict_check` returns -1 and `windows_dict_suggest` returns null,
and the backend spell checker is not invoked, because `copy_utf8_to_utf16`
returns null for such lengths. -/
theorem thm_c10_long_word (d : CoThreadState) (env : WinEnv)
    (dict : DictUserData) (word : List Nat) (len : Nat)
    (hlen : kMaxUTF8WordLengthInBytes < len) :
    windows_dict_check d env dict word len = (d, (-1, false)) ∧
    windows_dict_suggest d env dict word len = (d, (none, false)) ∧
    copy_utf8_to_utf16 env word len = none ∧
    kMaxUTF8WordLengthInBytes = 4 * kMaxWordLength ∧
    kMaxUTF8WordLengthInBytes = 512 := by
  refine ⟨?_, ?_, ?_, by decide, by decide⟩ <;>
    simp [windows_dict_check, windows_dict_suggest, windows_dict_check_body,
      windows_dict_suggest_body, copy_utf8_to_utf16, dispatchWork, hlen]

/-- C10 witness: a 513-byte word is rejected without a backend call. -/
theorem thm_c10_witness :
    kMaxUTF8WordLengthInBytes < 513 ∧
    windows_dict_check dRun idEnv noopDict [] 513 = (dRun, (-1, false)) ∧
    windows_dict_suggest dRun idEnv noopDict [] 513 = (dRun, (none, false)) := by
  have h := thm_c10_long_word dRun idEnv noopDict [] 513 (by decide)
  exact ⟨by decide, h.1, h.2.1⟩
